import Mathlib

/-!
Verification development for the `rendimento-api-ecs` dynamic forwarding
proxy (`src/app.js`).  The request-handling pipeline is embedded shallowly:
JavaScript strings are modelled as `List Char` (the ASCII fragment, which is
the fragment all URL machinery of the program operates on), the JS builtins
`encodeURIComponent` / `decodeURIComponent` are modelled at the same
character level, header objects become association lists, and the Express
handler of `src/app.js` becomes a pure function from an inbound request to
either an early JSON response or an outbound request description.
-/

namespace Proxy

/-- Uppercase hex digit for a value below 16, as produced by
`encodeURIComponent`. -/
def hexDigitChar (n : Nat) : Char :=
  if n < 10 then Char.ofNat (48 + n) else Char.ofNat (55 + n)

/-- Numeric value of a hex digit character (both cases), `none` for
non-hex-digit characters. -/
def hexVal (c : Char) : Option Nat :=
  if 48 ≤ c.toNat ∧ c.toNat ≤ 57 then some (c.toNat - 48)
  else if 65 ≤ c.toNat ∧ c.toNat ≤ 70 then some (c.toNat - 55)
  else if 97 ≤ c.toNat ∧ c.toNat ≤ 102 then some (c.toNat - 87)
  else none

/-- Model of the JS builtin `decodeURIComponent` on the ASCII fragment:
`%` must be followed by two hex digits, otherwise the builtin throws
`URIError`, modelled as `none`. -/
def decodeURIComponent : List Char → Option (List Char)
  | [] => some []
  | c :: rest =>
    if c = '%' then
      match rest with
      | a :: b :: rest2 =>
        match hexVal a, hexVal b with
        | some ha, some hb =>
          (decodeURIComponent rest2).map (fun t => Char.ofNat (16 * ha + hb) :: t)
        | _, _ => none
      | _ => none
    else (decodeURIComponent rest).map (fun t => c :: t)

/-- Decimal digit character. -/
def digitChar (d : Nat) : Char := Char.ofNat (48 + d)

/-- Decimal representation of a natural number (most significant digit
first); used to serialise an explicit port. -/
def natToChars (n : Nat) : List Char :=
  ((Nat.digits 10 n).map digitChar).reverse

/-- Numeric value of a non-empty all-digit character list (most significant
digit first), as the URL parser reads a port. -/
def charsToNat (cs : List Char) : Option Nat :=
  if cs ≠ [] ∧ cs.all (fun c => 48 ≤ c.toNat ∧ c.toNat ≤ 57) then
    some (cs.foldl (fun a c => 10 * a + (c.toNat - 48)) 0)
  else none

/-! Model of Node's WHATWG `new URL(...)` on the fragment the program uses

`src/app.js` line 74 parses the decoded target with `new URL(...)` and then
reads `protocol`, `hostname`, `port`, `pathname`, `search` and `host`.
The model below covers absolute `scheme://host[:port]path[?query][#frag]`
URLs over ASCII with ordinary host names; it canonicalises the way the JS
parser does on this fragment (lower-cases scheme and host, elides a
protocol-default port, empty path becomes `/`, drops the fragment) and
fails (`none`) where `new URL` throws on this fragment (no scheme, no
authority, invalid port). -/

/-- Result of `new URL(...)`: the fields the program reads. -/
structure URLRec where
  protocol : List Char
  hostname : List Char
  port : Option Nat
  pathname : List Char
  search : List Char
  deriving Repr, DecidableEq

/-- `parsedUrl.host`: hostname plus the explicit (non-default) port. -/
def URLRec.host (u : URLRec) : List Char :=
  u.hostname ++ (match u.port with | none => [] | some p => ':' :: natToChars p)

def isSchemeChar (c : Char) : Bool :=
  c.isAlpha || c.isDigit || c = '+' || c = '-' || c = '.'

def isHostChar (c : Char) : Bool :=
  (48 ≤ c.toNat ∧ c.toNat ≤ 57) || (65 ≤ c.toNat ∧ c.toNat ≤ 90) ||
  (97 ≤ c.toNat ∧ c.toNat ≤ 122) || c = '-' || c = '.' || c = '_'

/-- Whether a character ends the authority component; for special schemes
a backslash does too (WHATWG). -/
def authorityEnd (special : Bool) (c : Char) : Bool :=
  c = '/' || c = '?' || c = '#' || (special && c = '\\')

def notPathEnd (c : Char) : Bool :=
  ¬ (c = '?' || c = '#')

/-- JS `String.prototype.split` with a single-character separator. -/
def splitOnChar (sep : Char) : List Char → List (List Char)
  | [] => [[]]
  | c :: rest =>
    let r := splitOnChar sep rest
    if c = sep then [] :: r
    else (c :: r.headD []) :: r.tail

/-- JS `Array.prototype.join` with a single-character separator. -/
def joinChar (sep : Char) : List (List Char) → List Char
  | [] => []
  | [x] => x
  | x :: xs => x ++ sep :: joinChar sep xs

/-- The WHATWG special schemes. -/
def isSpecialScheme (s : List Char) : Bool :=
  s = "http".toList || s = "https".toList || s = "ws".toList ||
  s = "wss".toList || s = "ftp".toList || s = "file".toList

/-- Default ports of the special schemes (elided by the URL parser). -/
def defaultPort (s : List Char) : Option Nat :=
  if s = "http".toList || s = "ws".toList then some 80
  else if s = "https".toList || s = "wss".toList then some 443
  else if s = "ftp".toList then some 21
  else none

/-- Slash or backslash: ignored after `scheme:` for special schemes. -/
def specialSlash (c : Char) : Bool := c = '/' || c = '\\'

/-- Write a character as `%HH` with uppercase hex. -/
def pctEncodeChar (c : Char) : List Char :=
  ['%', hexDigitChar (c.toNat / 16), hexDigitChar (c.toNat % 16)]

/-- The WHATWG path percent-encode set: C0 controls, space, DEL and above,
double quote, angle brackets, backtick and the curly braces (the last
three written by code point: 96, 123, 125). -/
def inPathPctSet (c : Char) : Bool :=
  c.toNat < 33 || 127 ≤ c.toNat || c = '"' || c = '<' || c = '>' ||
  c = Char.ofNat 96 || c = Char.ofNat 123 || c = Char.ofNat 125

def encodePathChar (c : Char) : List Char :=
  if inPathPctSet c then pctEncodeChar c else [c]

/-- The WHATWG query percent-encode set; special schemes also encode the
single quote (code point 39). -/
def inQueryPctSet (special : Bool) (c : Char) : Bool :=
  c.toNat < 33 || 127 ≤ c.toNat || c = '"' || c = '#' || c = '<' || c = '>' ||
  (special && c = Char.ofNat 39)

def encodeQueryChar (special : Bool) (c : Char) : List Char :=
  if inQueryPctSet special c then pctEncodeChar c else [c]

/-- The C0-control percent-encode set used for opaque paths. -/
def inOpaquePctSet (c : Char) : Bool := c.toNat < 32 || 127 ≤ c.toNat

def encodeOpaqueChar (c : Char) : List Char :=
  if inOpaquePctSet c then pctEncodeChar c else [c]

/-- A path segment spelling `.` (`%2e` counts, case-insensitively). -/
def isSingleDotSeg (seg : List Char) : Bool :=
  seg = ['.'] || seg.map Char.toLower = "%2e".toList

/-- A path segment spelling `..` (with `%2e` variants). -/
def isDoubleDotSeg (seg : List Char) : Bool :=
  seg = "..".toList || (seg.map Char.toLower) = ".%2e".toList ||
  (seg.map Char.toLower) = "%2e.".toList || (seg.map Char.toLower) = "%2e%2e".toList

/-- WHATWG dot-segment removal over path segments: `..` pops the previous
segment, `.` is dropped, and a trailing dot segment leaves a trailing
slash (an empty final segment). -/
def remDotsAux : List (List Char) → List (List Char) → List (List Char)
  | acc, [] => acc.reverse
  | acc, seg :: rest =>
    let acc1 :=
      if isDoubleDotSeg seg then acc.tail
      else if isSingleDotSeg seg then acc
      else seg :: acc
    let acc2 :=
      if (isDoubleDotSeg seg || isSingleDotSeg seg) && rest.isEmpty then [] :: acc1
      else acc1
    remDotsAux acc2 rest

/-- For special schemes a backslash in the path is a path separator. -/
def slashNorm (special : Bool) (raw : List Char) : List Char :=
  if special then raw.map (fun c => if c = '\\' then '/' else c) else raw

/-- WHATWG path canonicalisation for authority URLs: backslash
normalisation, dot-segment removal, percent-encoding of the path
percent-encode set; an empty path becomes `/` for special schemes. -/
def pathCanon (special : Bool) (raw0 : List Char) : List Char :=
  let raw := slashNorm special raw0
  if raw = [] then (if special then ['/'] else [])
  else
    '/' :: joinChar '/'
      ((remDotsAux [] ((splitOnChar '/' raw).tail)).map (fun seg => seg.flatMap encodePathChar))

/-- Authority-form parsing shared by all schemes: host (may be empty only
when `allowEmptyHost`), validated optional port (default elided, refused
for `file`), canonicalised path and encoded query; fragment dropped. -/
def parseAfterAuthority (schemeLC : List Char) (special allowEmptyHost : Bool)
    (rest2 : List Char) : Option URLRec :=
  let authority := rest2.takeWhile (fun c => !authorityEnd special c)
  let afterAuth := rest2.dropWhile (fun c => !authorityEnd special c)
  let hostPart := authority.takeWhile (fun c => c ≠ ':')
  if (hostPart ≠ [] ∨ allowEmptyHost = true) ∧ hostPart.all isHostChar then
    let portRes : Option (Option Nat) :=
      match authority.dropWhile (fun c => c ≠ ':') with
      | [] => some none
      | _ :: pcs =>
        if schemeLC = "file".toList then none
        else if pcs = [] then some none
        else
          match charsToNat pcs with
          | none => none
          | some p =>
            if p ≤ 65535 then
              if defaultPort schemeLC = some p then some none else some (some p)
            else none
    match portRes with
    | none => none
    | some portField =>
      let pathRaw := afterAuth.takeWhile notPathEnd
      let afterPath := afterAuth.dropWhile notPathEnd
      some
        { protocol := schemeLC ++ [':']
          hostname := if special then hostPart.map Char.toLower else hostPart
          port := portField
          pathname := pathCanon special pathRaw
          search :=
            match afterPath with
            | '?' :: qs =>
              '?' :: (qs.takeWhile (fun c => c ≠ '#')).flatMap (encodeQueryChar special)
            | _ => [] }
  else none

/-- Model of Node's WHATWG `new URL(s)`: special schemes ignore extra
slashes after `scheme:` (`file` takes exactly `//`, may have an empty host
and no port; the other special schemes need a non-empty host); non-special
schemes take a `//authority` form (host may be empty) or an opaque path
(`mailto:`, `data:`, `javascript:`); paths are canonicalised (backslash
conversion, dot-segment removal, percent-encoding of forbidden
characters), queries are percent-encoded, the fragment is dropped.
Userinfo and IPv6 hosts are outside the modelled fragment (`none`). -/
def parseURL (s : List Char) : Option URLRec :=
  let scheme := s.takeWhile (fun c => c ≠ ':')
  match s.dropWhile (fun c => c ≠ ':') with
  | ':' :: rest1 =>
    if scheme ≠ [] ∧ (scheme.headD ' ').isAlpha ∧ scheme.all isSchemeChar then
      let schemeLC := scheme.map Char.toLower
      if isSpecialScheme schemeLC then
        if schemeLC = "file".toList then
          match rest1 with
          | '/' :: '/' :: r => parseAfterAuthority schemeLC true true r
          | _ => none
        else
          parseAfterAuthority schemeLC true false (rest1.dropWhile specialSlash)
      else
        match rest1 with
        | '/' :: '/' :: r => parseAfterAuthority schemeLC false true r
        | _ =>
          let pathRaw := rest1.takeWhile notPathEnd
          let afterPath := rest1.dropWhile notPathEnd
          some
            { protocol := schemeLC ++ [':']
              hostname := []
              port := none
              pathname := pathRaw.flatMap encodeOpaqueChar
              search :=
                match afterPath with
                | '?' :: qs =>
                  '?' :: (qs.takeWhile (fun c => c ≠ '#')).flatMap (encodeQueryChar false)
                | _ => [] }
    else none
  | _ => none

/-! Abstract absolute URLs and their serialisation (spec §8 round trip) -/

def schemeChars (secure : Bool) : List Char :=
  if secure then ['h','t','t','p','s'] else ['h','t','t','p']

abbrev Headers := List (String × String)

def hget (h : Headers) (k : String) : Option String :=
  (h.find? (fun p => p.1 = k)).map (fun p => p.2)

def hdel (h : Headers) (k : String) : Headers :=
  h.filter (fun p => p.1 ≠ k)

def hset (h : Headers) (k v : String) : Headers :=
  hdel h k ++ [(k, v)]

/-- Lines 93-108 of `src/app.js`: copy the inbound headers, delete the
hop-by-hop and forwarding-identity headers, then set `host` to
`parsedUrl.host`. -/
def forwardHeaders (reqHeaders : Headers) (parsedHost : List Char) : Headers :=
  hset (hdel (hdel (hdel (hdel (hdel (hdel (hdel (hdel (hdel (hdel (hdel (hdel
    reqHeaders "host") "connection") "keep-alive") "proxy-authenticate")
    "proxy-authorization") "te") "trailers") "transfer-encoding") "upgrade")
    "x-forwarded-for") "x-forwarded-host") "x-forwarded-proto")
    "host" (String.mk parsedHost)

/-- Lines 151-159 of `src/app.js`: copy the target's response headers and
delete the hop-by-hop headers (note: `host` is not deleted here). -/
def responseHeaders (proxyResponseHeaders : Headers) : Headers :=
  hdel (hdel (hdel (hdel (hdel (hdel (hdel (hdel proxyResponseHeaders
    "connection") "keep-alive") "proxy-authenticate") "proxy-authorization")
    "te") "trailers") "transfer-encoding") "upgrade"

/-! Bodies -/

/-- JSON values as Express body-parsing produces them and as
`JSON.stringify` consumes them. -/
inductive Json where
  | null
  | bool (b : Bool)
  | num (n : Int)
  | str (s : String)
  | arr (xs : List Json)
  | obj (fs : List (String × Json))
  deriving Repr

def escapeJsonChar (c : Char) : List Char :=
  if c = '"' then ['\\', '"'] else if c = '\\' then ['\\', '\\'] else [c]

def escapeJson (s : String) : String :=
  String.mk (s.toList.flatMap escapeJsonChar)

mutual
/-- Model of `JSON.stringify`. -/
def jsonStringify : Json → String
  | .null => "null"
  | .bool true => "true"
  | .bool false => "false"
  | .num n => toString n
  | .str s => "\"" ++ escapeJson s ++ "\""
  | .arr xs => "[" ++ String.intercalate "," (jsonStringifyList xs) ++ "]"
  | .obj fs => "\x7b" ++ String.intercalate "," (jsonStringifyFields fs) ++ "\x7d"

def jsonStringifyList : List Json → List String
  | [] => []
  | x :: xs => jsonStringify x :: jsonStringifyList xs

def jsonStringifyFields : List (String × Json) → List String
  | [] => []
  | (k, v) :: fs => ("\"" ++ escapeJson k ++ "\":" ++ jsonStringify v) :: jsonStringifyFields fs
end

/-- `req.body` as the Express body-parser middleware can leave it:
absent, a string, a raw byte buffer, or a parsed JSON value. -/
inductive JsBody where
  | undefined
  | str (s : String)
  | buf (b : List Nat)
  | json (j : Json)
  deriving Repr

/-- `req.body !== undefined`. -/
def JsBody.isDefined : JsBody → Bool
  | .undefined => false
  | _ => true

/-- The outbound `requestBody` value (JS initialises it to `''`). -/
inductive OutBody where
  | empty
  | str (s : String)
  | buf (b : List Nat)
  deriving Repr, DecidableEq

/-- `Buffer.byteLength(requestBody)`: UTF-8 byte length for strings,
buffer length for buffers. -/
def OutBody.byteLength : OutBody → Nat
  | .empty => 0
  | .str s => s.utf8ByteSize
  | .buf b => b.length

/-- JS truthiness of `requestBody` (`''` is falsy, every Buffer is truthy). -/
def OutBody.truthy : OutBody → Bool
  | .empty => false
  | .str s => s ≠ ""
  | .buf _ => true

/-- Lines 113-125 of `src/app.js`: compute `requestBody` (and the default
`content-type` for a re-serialised JSON body) from the already-sanitised
headers `fh0`. -/
def prepareBody (fh0 : Headers) (method : String) (body : JsBody) : Headers × OutBody :=
  if method ∈ ["POST", "PUT", "PATCH", "DELETE"] ∧ body.isDefined = true then
    match body with
    | .str s => (fh0, OutBody.str s)
    | .buf b => (fh0, OutBody.buf b)
    | .json j =>
      ((if hget fh0 "content-type" = none then
          hset fh0 "content-type" "application/json"
        else fh0),
       OutBody.str (jsonStringify j))
    | .undefined => (fh0, OutBody.empty)
  else (fh0, OutBody.empty)

/-- Lines 92-131 of `src/app.js`: header cleanup plus body preparation.
Returns the outbound headers and the outbound body (lines 127-130 set
`content-length` exactly when `requestBody` is truthy). -/
def prepareOutbound (method : String) (reqHeaders : Headers) (body : JsBody)
    (parsedHost : List Char) : Headers × OutBody :=
  let prepared := prepareBody (forwardHeaders reqHeaders parsedHost) method body
  if prepared.2.truthy then
    (hset prepared.1 "content-length" (toString prepared.2.byteLength), prepared.2)
  else prepared

/-! The URL resolver and the request handler -/

/-- Line 42 of `src/app.js`: strip the leading `/` from `req.originalUrl`. -/
def urlPathOf (originalUrl : List Char) : List Char :=
  if originalUrl.headD ' ' = '/' then originalUrl.tail else originalUrl

/-- Line 43 of `src/app.js`: `urlPath.split('/')[0]`. -/
def targetBaseUrlOf (urlPath : List Char) : List Char :=
  (splitOnChar '/' urlPath).headD []

/-- Line 45 of `src/app.js`: `"/" + urlPath.split('/').slice(1).join('/')`
when the path contains `/`, else the empty string. -/
def targetPathOf (urlPath : List Char) : List Char :=
  if urlPath.contains '/' then '/' :: joinChar '/' ((splitOnChar '/' urlPath).tail)
  else []

/-- The resolution failures of §7 of the spec, as the handler code can
produce them.  `uncaughtDecode` is the `URIError` thrown by the unguarded
`decodeURIComponent(targetBaseUrl)` at line 47, which is caught only by the
outer `catch` (line 215). -/
inductive ResolutionError where
  | uncaughtDecode
  | missingTarget
  | invalidEncoding
  | invalidTargetUrl
  | disallowedProtocol (protocol : List Char)
  deriving Repr, DecidableEq

/-- Lines 42-90 of `src/app.js`: extract the first path segment, decode it,
validate the whole path's encoding, parse the recombined URL and check the
protocol allow-list.  Note the code splits on `/` before decoding and
recombines `targetBaseUrlDecoded + targetPath` with the tail segments left
encoded. -/
def resolve (urlPath : List Char) : Except ResolutionError URLRec :=
  let targetBaseUrl := targetBaseUrlOf urlPath
  let targetPath := targetPathOf urlPath
  match decodeURIComponent targetBaseUrl with
  | none => .error .uncaughtDecode
  | some targetBaseUrlDecoded =>
    if urlPath = [] then .error .missingTarget
    else
      match decodeURIComponent urlPath with
      | none => .error .invalidEncoding
      | some _ =>
        match parseURL (targetBaseUrlDecoded ++ targetPath) with
        | none => .error .invalidTargetUrl
        | some parsedUrl =>
          if parsedUrl.protocol = "http:".toList ∨ parsedUrl.protocol = "https:".toList then
            .ok parsedUrl
          else .error (.disallowedProtocol parsedUrl.protocol)

/-- Structured JSON error payload (`\x7b error, message, ...context \x7d`). -/
structure ErrorBody where
  error : String
  message : String
  extra : List (String × String) := []
  deriving Repr, DecidableEq

/-- One inbound request as the handler sees it. -/
structure InboundRequest where
  method : String
  originalUrl : List Char
  headers : Headers
  body : JsBody

/-- Lines 137-144 of `src/app.js`. -/
structure RequestOptions where
  hostname : List Char
  port : Nat
  path : List Char
  method : String
  headers : Headers
  timeout : Nat

/-- What the handler does before any outbound I/O: skip (health check),
answer immediately with a JSON error (no outbound connection), or issue
the outbound request described by `RequestOptions`. -/
inductive HandlerStep where
  | skip
  | respond (status : Nat) (body : ErrorBody)
  | forward (opts : RequestOptions) (body : OutBody)

/-- Whether the handler opened an outbound connection. -/
def HandlerStep.isForward : HandlerStep → Bool
  | .forward _ _ => true
  | _ => false

def errStatus : ResolutionError → Nat
  | .uncaughtDecode => 500
  | _ => 400

def errBody (e : ResolutionError) (urlPath : List Char) : ErrorBody :=
  match e with
  | .uncaughtDecode =>
    { error := "Internal server error"
      message := "An error occurred while processing the request" }
  | .missingTarget =>
    { error := "Missing target URL"
      message := "Request format should be: /\x7burl-encoded-target-url\x7d"
      extra := [("example", "/https%3A%2F%2Fapi.example.com%2Fv1%2Fusers")] }
  | .invalidEncoding =>
    { error := "Invalid URL encoding"
      message := "The target URL must be properly URL-encoded"
      extra := [("received", String.mk urlPath)] }
  | .invalidTargetUrl =>
    { error := "Invalid target URL"
      message := "The decoded URL is not a valid URL"
      extra := [("decoded", String.mk ((decodeURIComponent urlPath).getD urlPath))] }
  | .disallowedProtocol p =>
    { error := "Invalid protocol"
      message := "Only HTTP and HTTPS protocols are allowed"
      extra := [("protocol", String.mk p)] }

/-- Lines 137-144 of `src/app.js`: the `requestOptions` object handed to
`httpModule.request` (the port defaulting mirrors
`parsedUrl.port || (parsedUrl.protocol === 'https:' ? 443 : 80)`). -/
def mkRequestOptions (req : InboundRequest) (parsedUrl : URLRec) : RequestOptions :=
  { hostname := parsedUrl.hostname
    port := parsedUrl.port.getD (if parsedUrl.protocol = "https:".toList then 443 else 80)
    path := parsedUrl.pathname ++ parsedUrl.search
    method := req.method
    headers := (prepareOutbound req.method req.headers req.body parsedUrl.host).1
    timeout := 30000 }

/-- Lines 32-144 of `src/app.js` up to the outbound call: the pure part of
the Express handler. -/
def handle (req : InboundRequest) : HandlerStep :=
  if req.originalUrl = "/health".toList then .skip
  else
    let urlPath := urlPathOf req.originalUrl
    match resolve urlPath with
    | .error e => .respond (errStatus e) (errBody e urlPath)
    | .ok parsedUrl =>
      .forward (mkRequestOptions req parsedUrl)
        (prepareOutbound req.method req.headers req.body parsedUrl.host).2

/-! The forwarder's response relay and failure classification -/

/-- What the outbound exchange can produce: a target response (any status),
an `error` event with a Node error code, or the 30s `timeout` event
(`headersSent` records whether relaying had already begun). -/
inductive ForwardEvent where
  | response (status : Nat) (headers : Headers)
  | err (code : String)
  | timeout (headersSent : Bool)

/-- What the caller observes: a relayed target response, a structured JSON
error, or (`none`) a terminated connection with no structured reply. -/
inductive CallerReply where
  | relay (status : Nat) (headers : Headers)
  | jsonError (status : Nat) (body : ErrorBody)
  deriving Repr, DecidableEq

def timeoutBody : ErrorBody :=
  { error := "Request timeout"
    message := "The request took too long to complete" }

def badGatewayBody : ErrorBody :=
  { error := "Bad Gateway"
    message := "Unable to connect to the target server" }

def internalErrorBody : ErrorBody :=
  { error := "Internal server error"
    message := "An error occurred while processing the request" }

/-- Lines 147-205 of `src/app.js`: the response handler relays the exact
status with sanitised headers; the `error` handler classifies by error
code; the `timeout` handler answers 408 only when headers were not yet
sent. -/
def forwardResult : ForwardEvent → Option CallerReply
  | .response s h => some (.relay s (responseHeaders h))
  | .err c =>
    if c = "ECONNABORTED" ∨ c = "ETIMEDOUT" then some (.jsonError 408 timeoutBody)
    else if c = "ENOTFOUND" ∨ c = "ECONNREFUSED" then some (.jsonError 502 badGatewayBody)
    else some (.jsonError 500 internalErrorBody)
  | .timeout headersSent =>
    if headersSent then none else some (.jsonError 408 timeoutBody)

/-! Claim theorems -/

theorem hget_cons (a : String × String) (t : Headers) (k : String) :
    hget (a :: t) k = if a.1 = k then some a.2 else hget t k := by
  by_cases hk : a.1 = k <;> simp [hget, List.find?, hk]

theorem hdel_cons (a : String × String) (t : Headers) (k : String) :
    hdel (a :: t) k = if a.1 = k then hdel t k else a :: hdel t k := by
  by_cases hk : a.1 = k <;> simp [hdel, List.filter_cons, hk]

theorem hget_hdel_self (h : Headers) (k : String) : hget (hdel h k) k = none := by
  induction h with
  | nil => rfl
  | cons a t ih =>
    rw [hdel_cons]
    by_cases hk : a.1 = k
    · rw [if_pos hk]; exact ih
    · rw [if_neg hk, hget_cons, if_neg hk]; exact ih

theorem hget_hdel_ne (h : Headers) {k kd : String} (hne : k ≠ kd) :
    hget (hdel h kd) k = hget h k := by
  induction h with
  | nil => rfl
  | cons a t ih =>
    rw [hdel_cons, hget_cons]
    by_cases hk : a.1 = kd
    · rw [if_pos hk, ih, if_neg (fun he => hne (he.symm.trans hk))]
    · rw [if_neg hk, hget_cons, ih]

theorem hget_append (h1 h2 : Headers) (k : String) :
    hget (h1 ++ h2) k = (hget h1 k).or (hget h2 k) := by
  induction h1 with
  | nil => simp [hget]
  | cons a t ih =>
    rw [List.cons_append, hget_cons, hget_cons]
    by_cases hk : a.1 = k <;> simp [hk, ih]

theorem hget_hset_self (h : Headers) (k v : String) : hget (hset h k v) k = some v := by
  rw [hset, hget_append, hget_hdel_self]
  simp [hget_cons]

theorem hget_hset_ne (h : Headers) {k ks : String} (v : String) (hne : k ≠ ks) :
    hget (hset h ks v) k = hget h k := by
  rw [hset, hget_append, hget_hdel_ne h hne, hget_cons,
    if_neg (fun he => hne he.symm)]
  simp [hget]

/-- Claim C5: a target response with any status code in [200, 599] is
relayed with that exact status code (with sanitised headers) and is never
classified as a forwarding failure. -/
theorem target_status_relayed (s : Nat) (h : Headers)
    (hlo : 200 ≤ s) (hhi : s ≤ 599) :
    forwardResult (.response s h) = some (.relay s (responseHeaders h)) ∧
    ∀ st b, forwardResult (.response s h) ≠ some (.jsonError st b) := by
  refine ⟨rfl, ?_⟩
  intro st b hc
  simp [forwardResult] at hc

/-- Witness for C5 at the concrete status 503. -/
theorem target_status_relayed_witness :
    forwardResult (.response 503 [("connection", "close")]) =
      some (.relay 503 (responseHeaders [("connection", "close")])) ∧
    ∀ st b, forwardResult (.response 503 [("connection", "close")]) ≠
      some (.jsonError st b) :=
  target_status_relayed 503 [("connection", "close")] (by decide) (by decide)

/-- Claim C6 (amended): transport-level failures are classified as in the
source — `ECONNABORTED`/`ETIMEDOUT` error codes and a timeout event before
headers were sent give 408, `ENOTFOUND`/`ECONNREFUSED` give 502, any other
error code gives 500, each with the structured JSON error body; a timeout
event after response headers were already sent produces no structured
reply at all (the connection is simply terminated). -/
theorem transport_error_classification (c : String)
    (h1 : c ≠ "ECONNABORTED") (h2 : c ≠ "ETIMEDOUT")
    (h3 : c ≠ "ENOTFOUND") (h4 : c ≠ "ECONNREFUSED") :
    forwardResult (.err "ECONNABORTED") = some (.jsonError 408 timeoutBody) ∧
    forwardResult (.err "ETIMEDOUT") = some (.jsonError 408 timeoutBody) ∧
    forwardResult (.timeout false) = some (.jsonError 408 timeoutBody) ∧
    forwardResult (.err "ENOTFOUND") = some (.jsonError 502 badGatewayBody) ∧
    forwardResult (.err "ECONNREFUSED") = some (.jsonError 502 badGatewayBody) ∧
    forwardResult (.err c) = some (.jsonError 500 internalErrorBody) ∧
    forwardResult (.timeout true) = none := by
  refine ⟨rfl, rfl, rfl, rfl, rfl, ?_, rfl⟩
  simp [forwardResult, h1, h2, h3, h4]

/-- Witness for C6 at the concrete unexpected error code `ECONNRESET`. -/
theorem transport_error_classification_witness :
    forwardResult (.err "ECONNABORTED") = some (.jsonError 408 timeoutBody) ∧
    forwardResult (.err "ETIMEDOUT") = some (.jsonError 408 timeoutBody) ∧
    forwardResult (.timeout false) = some (.jsonError 408 timeoutBody) ∧
    forwardResult (.err "ENOTFOUND") = some (.jsonError 502 badGatewayBody) ∧
    forwardResult (.err "ECONNREFUSED") = some (.jsonError 502 badGatewayBody) ∧
    forwardResult (.err "ECONNRESET") = some (.jsonError 500 internalErrorBody) ∧
    forwardResult (.timeout true) = none :=
  transport_error_classification "ECONNRESET" (by decide) (by decide) (by decide) (by decide)

/-- Counterexample to claim C6 as stated: a timeout occurring after the
response headers have been relayed (but before the response completes) is
not answered with 408 — the handler at line 199 checks `res.headersSent`
and produces no structured reply at all. -/
theorem timeout_after_headers_unstructured :
    forwardResult (.timeout true) = none := rfl

/-- Claim C9: request-header translation (strip hop-by-hop and
forwarding-identity headers, then set `host`) is idempotent. -/
theorem forwardHeaders_idempotent (h : Headers) (hostStr : List Char) :
    forwardHeaders (forwardHeaders h hostStr) hostStr = forwardHeaders h hostStr := by
  simp only [forwardHeaders, hset, hdel, List.filter_append, List.filter_filter]
  simp [Bool.and_self]
  apply List.filter_congr
  intro a _
  generalize decide (a.1 = "host") = b1
  generalize decide (a.1 = "connection") = b2
  generalize decide (a.1 = "keep-alive") = b3
  generalize decide (a.1 = "proxy-authenticate") = b4
  generalize decide (a.1 = "proxy-authorization") = b5
  generalize decide (a.1 = "te") = b6
  generalize decide (a.1 = "trailers") = b7
  generalize decide (a.1 = "transfer-encoding") = b8
  generalize decide (a.1 = "upgrade") = b9
  generalize decide (a.1 = "x-forwarded-for") = b10
  generalize decide (a.1 = "x-forwarded-host") = b11
  generalize decide (a.1 = "x-forwarded-proto") = b12
  revert b1 b2 b3 b4 b5 b6 b7 b8 b9 b10 b11 b12
  decide

/-! Serialised JSON is never the empty string -/

theorem toDigitsCore_ne_nil {b : Nat} :
    ∀ (f n : Nat) (ds : List Char), ds ≠ [] → Nat.toDigitsCore b f n ds ≠ []
  | 0, _, _, h => h
  | f + 1, n, ds, h => by
    simp only [Nat.toDigitsCore]
    split
    · simp
    · exact toDigitsCore_ne_nil f (n / b) (_ :: ds) (by simp)

theorem toDigits_ne_nil (b n : Nat) : Nat.toDigits b n ≠ [] := by
  rw [Nat.toDigits]
  simp only [Nat.toDigitsCore]
  split
  · simp
  · exact toDigitsCore_ne_nil _ _ _ (by simp)

theorem natRepr_ne_empty (n : Nat) : Nat.repr n ≠ "" := by
  rw [Nat.repr]
  intro h
  exact toDigits_ne_nil 10 n (congrArg String.data h)

theorem intToString_ne_empty (n : Int) : toString n ≠ "" := by
  show Int.repr n ≠ ""
  cases n with
  | ofNat m => exact natRepr_ne_empty m
  | negSucc m =>
    rw [Int.repr]
    intro h
    have hl := congrArg String.length h
    simp [String.length_append] at hl
    exact absurd hl.1 (by decide)

theorem jsonStringify_ne_empty (j : Json) : jsonStringify j ≠ "" := by
  cases j with
  | null => decide
  | bool b => cases b <;> decide
  | num n => exact intToString_ne_empty n
  | str s =>
    intro h
    have hl := congrArg String.length h
    rw [jsonStringify] at hl
    simp [String.length_append] at hl
    exact absurd hl.2 (by decide)
  | arr xs =>
    intro h
    have hl := congrArg String.length h
    rw [jsonStringify] at hl
    simp [String.length_append] at hl
    exact absurd hl.2 (by decide)
  | obj fs =>
    intro h
    have hl := congrArg String.length h
    rw [jsonStringify] at hl
    simp [String.length_append] at hl
    exact absurd hl.2 (by decide)

/-! Header sanitisation lemmas shared by the claims -/

theorem hget_forwardHeaders_stripped (h : Headers) (hostStr : List Char) (k : String)
    (hk : k ∈ ["connection", "keep-alive", "proxy-authenticate", "proxy-authorization",
      "te", "trailers", "transfer-encoding", "upgrade", "x-forwarded-for",
      "x-forwarded-host", "x-forwarded-proto"]) :
    hget (forwardHeaders h hostStr) k = none := by
  fin_cases hk <;> simp [forwardHeaders, hget_hset_ne, hget_hdel_ne, hget_hdel_self]

theorem hget_forwardHeaders_host (h : Headers) (hostStr : List Char) :
    hget (forwardHeaders h hostStr) "host" = some (String.mk hostStr) :=
  hget_hset_self ..

theorem hget_responseHeaders_stripped (h : Headers) (k : String)
    (hk : k ∈ ["connection", "keep-alive", "proxy-authenticate", "proxy-authorization",
      "te", "trailers", "transfer-encoding", "upgrade"]) :
    hget (responseHeaders h) k = none := by
  fin_cases hk <;> simp [responseHeaders, hget_hdel_ne, hget_hdel_self]

theorem hget_forwardHeaders_content_type (h : Headers) (hostStr : List Char) :
    hget (forwardHeaders h hostStr) "content-type" = hget h "content-type" := by
  simp [forwardHeaders, hget_hset_ne, hget_hdel_ne]

theorem hget_forwardHeaders_content_length (h : Headers) (hostStr : List Char) :
    hget (forwardHeaders h hostStr) "content-length" = hget h "content-length" := by
  simp [forwardHeaders, hget_hset_ne, hget_hdel_ne]

/-- Claim C7 (amended): on the request direction every hop-by-hop and
forwarding-identity header is stripped and `host` is set to the target's
host; on the response direction the hop-by-hop headers other than `host`
are stripped (`host` itself is not deleted from response headers by the
code). -/
theorem header_sanitization (inH respH : Headers) (u : URLRec) (k k2 : String)
    (hk : k ∈ ["connection", "keep-alive", "proxy-authenticate", "proxy-authorization",
      "te", "trailers", "transfer-encoding", "upgrade", "x-forwarded-for",
      "x-forwarded-host", "x-forwarded-proto"])
    (hk2 : k2 ∈ ["connection", "keep-alive", "proxy-authenticate", "proxy-authorization",
      "te", "trailers", "transfer-encoding", "upgrade"]) :
    hget (forwardHeaders inH u.host) k = none ∧
    hget (forwardHeaders inH u.host) "host" = some (String.mk u.host) ∧
    hget (responseHeaders respH) k2 = none :=
  ⟨hget_forwardHeaders_stripped inH u.host k hk,
   hget_forwardHeaders_host inH u.host,
   hget_responseHeaders_stripped respH k2 hk2⟩

/-- Witness for C7 at concrete headers, target and keys. -/
theorem header_sanitization_witness :
    hget (forwardHeaders [("te", "x"), ("accept", "y")] (URLRec.host { protocol := "http:".toList, hostname := ['h'], port := some 81, pathname := ['/'], search := [] })) "te" = none ∧
    hget (forwardHeaders [("te", "x"), ("accept", "y")] (URLRec.host { protocol := "http:".toList, hostname := ['h'], port := some 81, pathname := ['/'], search := [] })) "host" = some (String.mk (URLRec.host { protocol := "http:".toList, hostname := ['h'], port := some 81, pathname := ['/'], search := [] })) ∧
    hget (responseHeaders [("upgrade", "z")]) "upgrade" = none :=
  header_sanitization [("te", "x"), ("accept", "y")] [("upgrade", "z")] { protocol := "http:".toList, hostname := ['h'], port := some 81, pathname := ['/'], search := [] } "te" "upgrade" (by decide) (by decide)

/-- Counterexample to claim C7 as stated: a `host` header sent by the
target on its response is not in the response-direction delete list
(lines 152-159) and is relayed to the caller. -/
theorem response_host_header_kept :
    hget (responseHeaders [("host", "attacker.example")]) "host" =
      some "attacker.example" := by decide

/-- Claim C4 (amended): whenever the outbound body is non-empty (truthy),
the outbound `content-length` equals the exact byte length of the outbound
body, overriding any inbound value. -/
theorem content_length_recomputed (method : String) (inH : Headers) (body : JsBody)
    (hostStr : List Char)
    (htr : (prepareOutbound method inH body hostStr).2.truthy = true) :
    hget (prepareOutbound method inH body hostStr).1 "content-length" =
      some (toString (prepareOutbound method inH body hostStr).2.byteLength) := by
  rw [prepareOutbound] at htr ⊢
  by_cases ht : (prepareBody (forwardHeaders inH hostStr) method body).2.truthy
  · rw [if_pos ht]
    exact hget_hset_self ..
  · rw [if_neg ht] at htr
    exact absurd htr ht

/-- Witness for C4's amended claim: a POST with a string body and a stale
inbound `content-length: 99` goes out with `content-length: 5`. -/
theorem content_length_recomputed_witness :
    hget (prepareOutbound "POST" [("content-length", "99")] (.str "hello") ['h']).1
      "content-length" =
      some (toString (prepareOutbound "POST" [("content-length", "99")]
        (.str "hello") ['h']).2.byteLength) :=
  content_length_recomputed "POST" [("content-length", "99")] (.str "hello") ['h']
    (by decide)

/-- Counterexample to claim C4 as stated: a forwarded GET request with an
inbound `content-length: 5` header keeps that header verbatim (it is not
in the strip list and no body is prepared), while the outbound body is
empty (byte length 0). -/
theorem content_length_copied_when_no_body :
    hget (prepareOutbound "GET" [("content-length", "5")] .undefined ['h']).1
      "content-length" = some "5" ∧
    (prepareOutbound "GET" [("content-length", "5")] .undefined ['h']).2.byteLength = 0 := by
  decide

/-- Claim C8: a POST whose body was parsed as JSON and whose inbound
headers carry no `content-type` goes out with `content-type:
application/json` and `content-length` equal to the byte length of the
serialised body. -/
theorem post_json_content_headers (inH : Headers) (j : Json) (hostStr : List Char)
    (hct : hget inH "content-type" = none) :
    hget (prepareOutbound "POST" inH (.json j) hostStr).1 "content-type" =
      some "application/json" ∧
    hget (prepareOutbound "POST" inH (.json j) hostStr).1 "content-length" =
      some (toString (jsonStringify j).utf8ByteSize) ∧
    (prepareOutbound "POST" inH (.json j) hostStr).2 = .str (jsonStringify j) := by
  have hct0 : hget (forwardHeaders inH hostStr) "content-type" = none :=
    (hget_forwardHeaders_content_type inH hostStr).trans hct
  have hpb : prepareBody (forwardHeaders inH hostStr) "POST" (.json j) =
      (hset (forwardHeaders inH hostStr) "content-type" "application/json",
       OutBody.str (jsonStringify j)) := by
    simp [prepareBody, JsBody.isDefined, hct0]
  have htr : (OutBody.str (jsonStringify j)).truthy = true := by
    simp [OutBody.truthy, jsonStringify_ne_empty j]
  rw [prepareOutbound, hpb]
  rw [if_pos htr]
  refine ⟨?_, ?_, rfl⟩
  · rw [hget_hset_ne _ _ (by decide), hget_hset_self]
  · exact hget_hset_self ..

/-- Witness for C8 at the concrete JSON body `\x7b"a":1\x7d`. -/
theorem post_json_content_headers_witness :
    hget (prepareOutbound "POST" [] (.json (.obj [("a", .num 1)])) ['h']).1
      "content-type" = some "application/json" ∧
    hget (prepareOutbound "POST" [] (.json (.obj [("a", .num 1)])) ['h']).1
      "content-length" =
      some (toString (jsonStringify (.obj [("a", .num 1)])).utf8ByteSize) ∧
    (prepareOutbound "POST" [] (.json (.obj [("a", .num 1)])) ['h']).2 =
      .str (jsonStringify (.obj [("a", .num 1)])) :=
  post_json_content_headers [] (.obj [("a", .num 1)]) ['h'] (by decide)

/-- Claim C3 (code bug): a malformed percent sequence in the first path
segment (here the whole path `/%`) makes the unguarded
`decodeURIComponent(targetBaseUrl)` at line 47 throw, which is caught by
the outer `catch` (line 219) and answered with status 500, not the
documented 400 `Invalid URL encoding`; the dedicated 400 branch (lines
63-67) is reached only when the malformed sequence sits in a later path
segment, as the second conjunct shows. -/
theorem malformed_first_segment_yields_500 :
    handle { method := "GET", originalUrl := "/%".toList, headers := [], body := .undefined } = .respond 500 (errBody .uncaughtDecode ['%']) ∧
    handle { method := "GET", originalUrl := "/https%3A%2F%2Fh/a%".toList, headers := [], body := .undefined } = .respond 400 (errBody .invalidEncoding (urlPathOf "/https%3A%2F%2Fh/a%".toList)) := by
  exact ⟨rfl, rfl⟩

/-- Claim C2 (amended): a decoded target URL that parses with a scheme
outside `http`/`https` is rejected by the protocol allow-list with
`DisallowedProtocol`, status 400, and no outbound connection is opened
(a target with a missing scheme fails URL parsing instead, yielding
`InvalidTargetUrl`, also 400 with no outbound connection). -/
theorem scheme_allowlist_rejection (req : InboundRequest) (dec dec2 : List Char) (u : URLRec)
    (hh : req.originalUrl ≠ "/health".toList)
    (h1 : decodeURIComponent (targetBaseUrlOf (urlPathOf req.originalUrl)) = some dec)
    (h2 : urlPathOf req.originalUrl ≠ [])
    (h3 : decodeURIComponent (urlPathOf req.originalUrl) = some dec2)
    (h4 : parseURL (dec ++ targetPathOf (urlPathOf req.originalUrl)) = some u)
    (h5 : u.protocol ≠ "http:".toList) (h6 : u.protocol ≠ "https:".toList) :
    resolve (urlPathOf req.originalUrl) = .error (.disallowedProtocol u.protocol) ∧
    handle req = .respond 400 (errBody (.disallowedProtocol u.protocol) (urlPathOf req.originalUrl)) ∧
    (handle req).isForward = false := by
  have hres : resolve (urlPathOf req.originalUrl) = .error (.disallowedProtocol u.protocol) := by
    simp only [resolve, h1, h3, h4]
    rw [if_neg h2, if_neg (fun hor => hor.elim h5 h6)]
  have hstep : handle req = .respond 400 (errBody (.disallowedProtocol u.protocol) (urlPathOf req.originalUrl)) := by
    rw [handle, if_neg hh]
    simp only [hres]
    rfl
  exact ⟨hres, hstep, by rw [hstep]; rfl⟩

/-- Witness for C2's amended claim at the concrete target
`file:///etc/passwd` (a URL `new URL` parses — empty host, path
`/etc/passwd` — whose scheme `file:` the allow-list rejects). -/
theorem scheme_allowlist_rejection_witness :
    resolve (urlPathOf "/file%3A%2F%2F%2Fetc%2Fpasswd".toList) = .error (.disallowedProtocol "file:".toList) ∧
    handle { method := "GET", originalUrl := "/file%3A%2F%2F%2Fetc%2Fpasswd".toList, headers := [], body := .undefined } = .respond 400 (errBody (.disallowedProtocol "file:".toList) (urlPathOf "/file%3A%2F%2F%2Fetc%2Fpasswd".toList)) ∧
    (handle { method := "GET", originalUrl := "/file%3A%2F%2F%2Fetc%2Fpasswd".toList, headers := [], body := .undefined }).isForward = false :=
  scheme_allowlist_rejection { method := "GET", originalUrl := "/file%3A%2F%2F%2Fetc%2Fpasswd".toList, headers := [], body := .undefined } "file:///etc/passwd".toList "file:///etc/passwd".toList { protocol := "file:".toList, hostname := [], port := none, pathname := "/etc/passwd".toList, search := [] }
    (by decide) (by decide) (by decide) (by decide) (by decide) (by decide) (by decide)

/-- Counterexample to claim C2 as stated: a decoded target with a missing
scheme (`not-a-url`) makes `new URL` throw, so the resolver fails with
`InvalidTargetUrl`, not with `DisallowedProtocol` as the claim asserts. -/
theorem missing_scheme_invalid_target :
    resolve (urlPathOf "/not-a-url".toList) = .error .invalidTargetUrl ∧
    ∀ p, ResolutionError.invalidTargetUrl ≠ .disallowedProtocol p :=
  ⟨rfl, fun _ h => ResolutionError.noConfusion h⟩

/-- Claim C10: resolution applies no host-based restriction — whenever
the resolver succeeds the handler opens the outbound connection to
exactly the resolved hostname (the resolver checks only that the scheme
is http or https). -/
theorem no_host_restriction (req : InboundRequest) (u : URLRec)
    (hh : req.originalUrl ≠ "/health".toList)
    (hres : resolve (urlPathOf req.originalUrl) = .ok u) :
    handle req = .forward (mkRequestOptions req u) (prepareOutbound req.method req.headers req.body u.host).2 ∧
    (mkRequestOptions req u).hostname = u.hostname ∧
    (u.protocol = "http:".toList ∨ u.protocol = "https:".toList) := by
  refine ⟨?_, rfl, ?_⟩
  · rw [handle, if_neg hh]
    simp only [hres]
  · simp only [resolve] at hres
    split at hres
    · exact absurd hres (by simp)
    · split at hres
      · exact absurd hres (by simp)
      · split at hres
        · exact absurd hres (by simp)
        · split at hres
          · exact absurd hres (by simp)
          · split at hres
            · rename_i hcond
              obtain rfl : _ = u := Except.ok.inj hres
              exact hcond
            · exact absurd hres (by simp)

/-- Witness for C10 at the loopback target `http://127.0.0.1:8080/admin`. -/
theorem no_host_restriction_witness :
    handle { method := "GET", originalUrl := "/http%3A%2F%2F127.0.0.1%3A8080%2Fadmin".toList, headers := [], body := .undefined } = .forward (mkRequestOptions { method := "GET", originalUrl := "/http%3A%2F%2F127.0.0.1%3A8080%2Fadmin".toList, headers := [], body := .undefined } { protocol := "http:".toList, hostname := "127.0.0.1".toList, port := some 8080, pathname := "/admin".toList, search := [] }) (prepareOutbound "GET" [] .undefined (URLRec.host { protocol := "http:".toList, hostname := "127.0.0.1".toList, port := some 8080, pathname := "/admin".toList, search := [] })).2 ∧
    (mkRequestOptions { method := "GET", originalUrl := "/http%3A%2F%2F127.0.0.1%3A8080%2Fadmin".toList, headers := [], body := .undefined } { protocol := "http:".toList, hostname := "127.0.0.1".toList, port := some 8080, pathname := "/admin".toList, search := [] }).hostname = "127.0.0.1".toList ∧
    (("http:".toList : List Char) = "http:".toList ∨ ("http:".toList : List Char) = "https:".toList) :=
  no_host_restriction { method := "GET", originalUrl := "/http%3A%2F%2F127.0.0.1%3A8080%2Fadmin".toList, headers := [], body := .undefined } { protocol := "http:".toList, hostname := "127.0.0.1".toList, port := some 8080, pathname := "/admin".toList, search := [] } (by decide) (by rfl)

/-! Character-class and list helper lemmas for the round-trip proof -/

theorem digit_ne_colon {c : Char} (h : 48 ≤ c.toNat ∧ c.toNat ≤ 57) : c ≠ ':' :=
  fun he => by subst he; exact absurd h (by decide)

theorem schemeChars_headD_isAlpha (b : Bool) : ((schemeChars b).headD ' ').isAlpha := by
  cases b <;> decide

theorem schemeChars_all_scheme (b : Bool) : (schemeChars b).all isSchemeChar := by
  cases b <;> decide

theorem schemeChars_no_colon (b : Bool) :
    ∀ a ∈ schemeChars b, (decide (a ≠ ':')) = true := by
  cases b <;> decide

theorem schemeChars_map_toLower (b : Bool) :
    (schemeChars b).map Char.toLower = schemeChars b := by
  cases b <;> decide

theorem default_port_cond (b : Bool) (p : Nat) :
    ((schemeChars b = ['h', 't', 't', 'p'] ∧ p = 80) ∨
      (schemeChars b = ['h', 't', 't', 'p', 's'] ∧ p = 443)) ↔
    ((b = false ∧ p = 80) ∨ (b = true ∧ p = 443)) := by
  cases b <;> simp [schemeChars]

end Proxy
